import Mathlib

/-!
Verification of the Confluence PDF export engine (src/app.py).

The Python source is shallowly embedded: network responses are supplied as
explicit oracle values/functions, Python strings are `String`/`List Char`,
Python `None`-able results are `Option`, and paths on which the Python code
raises an exception are `Except.error`.  Sleeps and HTTP calls are recorded
as an explicit event trace so that claims about waits and call counts can be
stated.
-/

/-- Python `str.strip()` whitespace class, restricted to the ASCII whitespace
characters (Python also strips some Unicode space characters; the inputs in
play are ASCII). -/
def isPySpace (c : Char) : Bool :=
  c == ' ' || c == '\t' || c == '\n' || c == '\r' || c == '\x0b' || c == '\x0c'

/-- Python regex word character `\w`, restricted to the ASCII range
(alphanumeric or underscore). -/
def isWordChar (c : Char) : Bool :=
  c.isAlphanum || c == '_'

/-- Python `str.strip()` on a character list: drop leading and trailing
whitespace. -/
def pyStripL (l : List Char) : List Char :=
  ((l.dropWhile isPySpace).reverse.dropWhile isPySpace).reverse

/-- Python `str.strip()` on a `String`. -/
def pyStripStr (s : String) : String :=
  ⟨pyStripL s.data⟩

/-- Python `str.strip(chars)` for an explicit character set: drop leading and
trailing characters belonging to `cs`. -/
def stripSet (cs : List Char) (l : List Char) : List Char :=
  ((l.dropWhile cs.contains).reverse.dropWhile cs.contains).reverse

/-- Python `str.rstrip('_')`: drop all trailing underscores. -/
def rstripUnderscores (l : List Char) : List Char :=
  (l.reverse.dropWhile (fun c => c == '_')).reverse

/-- Python single-character `str.split(sep)`: split at every occurrence of
`sep`, keeping empty fields (`"".split(",") == [""]`). -/
def pySplitChar (sep : Char) : List Char → List (List Char)
  | [] => [[]]
  | c :: t =>
    let r := pySplitChar sep t
    if c == sep then [] :: r
    else
      match r with
      | h :: t2 => (c :: h) :: t2
      | [] => [[c]]

/-- `convert_title_to_filename` (src/app.py:407-422): strip, replace spaces
with underscores, delete all non-word characters (`re.sub(r'\W+', '', ...)`),
truncate to the maximum length 100 (`max_length` default, never overridden by
any caller), and strip trailing underscores. -/
def convert_title_to_filename (title : List Char) : List Char :=
  rstripUnderscores
    ((((pyStripL title).map (fun c => if c == ' ' then '_' else c)).filter
        isWordChar).take 100)

-- Helper lemmas for the sanitizer.

theorem rstripUnderscores_sublist (l : List Char) :
    (rstripUnderscores l).Sublist l := by
  have h1 : (l.reverse.dropWhile (fun c => c == '_')).Sublist l.reverse :=
    List.dropWhile_sublist _
  have h2 := h1.reverse
  simpa [rstripUnderscores] using h2

theorem mem_rstripUnderscores {c : Char} {l : List Char}
    (h : c ∈ rstripUnderscores l) : c ∈ l :=
  (rstripUnderscores_sublist l).subset h

theorem length_rstripUnderscores (l : List Char) :
    (rstripUnderscores l).length ≤ l.length :=
  (rstripUnderscores_sublist l).length_le

theorem head?_dropWhile_false {p : Char → Bool} :
    ∀ (l : List Char) (a : Char), (l.dropWhile p).head? = some a → p a = false := by
  intro l
  induction l with
  | nil => intro a h; simp at h
  | cons c t ih =>
    intro a h
    by_cases hc : p c
    · rw [List.dropWhile_cons_of_pos hc] at h
      exact ih a h
    · rw [List.dropWhile_cons_of_neg hc] at h
      simp at h
      subst h
      cases hp : p c with
      | false => rfl
      | true => exact absurd hp hc

theorem getLast?_rstripUnderscores (l : List Char) :
    (rstripUnderscores l).getLast? ≠ some '_' := by
  intro h
  unfold rstripUnderscores at h
  rw [List.getLast?_reverse] at h
  have := head?_dropWhile_false (p := fun c => c == '_') l.reverse '_' h
  simp at this

theorem isPySpace_of_not_word {c : Char} (h : isWordChar c = true) :
    isPySpace c = false := by
  by_contra hcon
  have hsp : isPySpace c = true := by
    cases hx : isPySpace c
    · exact absurd hx hcon
    · rfl
  unfold isPySpace at hsp
  simp only [Bool.or_eq_true, beq_iff_eq] at hsp
  rcases hsp with ((((h1 | h1) | h1) | h1) | h1) | h1 <;>
    (subst h1; exact absurd h (by decide))

theorem not_space_char_of_word {c : Char} (h : isWordChar c = true) : c ≠ ' ' := by
  intro hc
  subst hc
  exact absurd h (by decide)

theorem dropWhile_eq_self_of {p : Char → Bool} {l : List Char}
    (h : ∀ c ∈ l, p c = false) : l.dropWhile p = l := by
  cases l with
  | nil => rfl
  | cons c t =>
    have hc : ¬ p c = true := by
      rw [h c (List.mem_cons_self c t)]; simp
    exact List.dropWhile_cons_of_neg hc

theorem pyStripL_eq_self {l : List Char}
    (h : ∀ c ∈ l, isPySpace c = false) : pyStripL l = l := by
  unfold pyStripL
  rw [dropWhile_eq_self_of h]
  rw [dropWhile_eq_self_of (fun c hc => h c (List.mem_reverse.mp hc))]
  exact List.reverse_reverse l

theorem map_id_of {f : Char → Char} :
    ∀ l : List Char, (∀ c ∈ l, f c = c) → l.map f = l := by
  intro l h
  induction l with
  | nil => rfl
  | cons c t ih =>
    simp only [List.map_cons]
    rw [h c (List.mem_cons_self c t), ih (fun d hd => h d (List.mem_cons_of_mem c hd))]

theorem rstripUnderscores_eq_self {l : List Char}
    (h : l.getLast? ≠ some '_') : rstripUnderscores l = l := by
  unfold rstripUnderscores
  cases hl : l.reverse with
  | nil =>
    have : l = [] := by
      have := congrArg List.reverse hl
      simpa using this
    subst this; rfl
  | cons c t =>
    have hc : c ≠ '_' := by
      intro hc
      apply h
      rw [← List.head?_reverse, hl, hc]
      rfl
    have hd : List.dropWhile (fun x => x == '_') (c :: t) = c :: t := by
      rw [List.dropWhile_cons]
      simp [hc]
    rw [hd, ← hl, List.reverse_reverse]

theorem convert_title_to_filename_fixpoint {y : List Char}
    (hword : ∀ c ∈ y, isWordChar c = true)
    (hlast : y.getLast? ≠ some '_')
    (hlen : y.length ≤ 100) :
    convert_title_to_filename y = y := by
  have hstrip : pyStripL y = y :=
    pyStripL_eq_self (fun c hc => isPySpace_of_not_word (hword c hc))
  have hmap : y.map (fun c => if c == ' ' then '_' else c) = y := by
    apply map_id_of
    intro c hc
    have := not_space_char_of_word (hword c hc)
    simp [this]
  have hfilter : y.filter isWordChar = y :=
    List.filter_eq_self.mpr (fun c hc => hword c hc)
  have htake : y.take 100 = y := List.take_of_length_le hlen
  unfold convert_title_to_filename
  rw [hstrip, hmap, hfilter, htake, rstripUnderscores_eq_self hlast]

/-- C5: the filename sanitizer is idempotent; its output contains only word
characters, never ends in an underscore, and has length at most the
configured maximum, 100. -/
theorem convert_title_to_filename_props (x : List Char) :
    convert_title_to_filename (convert_title_to_filename x)
        = convert_title_to_filename x
      ∧ (∀ c ∈ convert_title_to_filename x, isWordChar c = true)
      ∧ (convert_title_to_filename x).getLast? ≠ some '_'
      ∧ (convert_title_to_filename x).length ≤ 100 := by
  have hword : ∀ c ∈ convert_title_to_filename x, isWordChar c = true := by
    intro c hc
    have h1 := mem_rstripUnderscores hc
    have h2 := List.mem_of_mem_take h1
    exact (List.mem_filter.mp h2).2
  have hlast : (convert_title_to_filename x).getLast? ≠ some '_' :=
    getLast?_rstripUnderscores _
  have hlen : (convert_title_to_filename x).length ≤ 100 := by
    calc (convert_title_to_filename x).length
        ≤ ((((pyStripL x).map (fun c => if c == ' ' then '_' else c)).filter
            isWordChar).take 100).length := length_rstripUnderscores _
      _ ≤ 100 := List.length_take_le _ _
  exact ⟨convert_title_to_filename_fixpoint hword hlast hlen, hword, hlast, hlen⟩

/-! ## Page enumeration with cursor pagination (`get_confluence_pages_by_space_id`) -/

/-- A `(page id, title)` result entry from the listing endpoint. -/
structure PageEntry where
  id : String
  title : String
deriving DecidableEq, Repr

/-- Outcome of `handle_json_errors` plus the two checks the loop body applies
to it (src/app.py:177-184): `bodyError` covers a non-200 status or a non-JSON
body (the `{"error": ..., "details": ...}` record, caught by `'error' in
data`), `noResults` a JSON body without a `results` field, and `results` the
parsed list of entries. -/
inductive PagesBody where
  | bodyError
  | noResults
  | results (rs : List PageEntry)
deriving DecidableEq, Repr

/-- One HTTP response of the listing endpoint: its parsed body and its raw
`Link` header, when present. -/
structure PageApiResponse where
  body : PagesBody
  linkHeader : Option (List Char)

/-- One `<url>; rel="..."` entry of a `Link` header, as the dict
comprehension at src/app.py:191 parses it: split on `";"`, the second part
stripped is the key, the first part stripped of `<>` is the value.  `none`
models the `IndexError` Python raises when an entry has no `";"`. -/
def entryKV (entry : List Char) : Option (List Char × List Char) :=
  match pySplitChar ';' entry with
  | v :: k :: _ => some (pyStripL k, stripSet ['<', '>'] v)
  | _ => none

/-- The `rel="next"` target of a `Link` header: build the comprehension's
dict (later entries overwrite earlier ones, hence the lookup on the reversed
association list) and look up the literal key `rel="next"`.  `Except.error`
models the `IndexError` on a malformed entry. -/
def linkNext (h : List Char) : Except Unit (Option (List Char)) :=
  match (pySplitChar ',' h).mapM entryKV with
  | none => Except.error ()
  | some kvs => Except.ok (kvs.reverse.lookup "rel=\"next\"".data)

/-- The next URL the pagination loop will fetch (src/app.py:189-195): absent
header or absent/empty (`if next_url` is false for `""`) `rel="next"` entry
means no next page; otherwise `https://{domain}{next_url}`. -/
def nextUrlOfResp (domain : String) (r : PageApiResponse) :
    Except Unit (Option String) :=
  match r.linkHeader with
  | none => Except.ok none
  | some h =>
    match linkNext h with
    | Except.error e => Except.error e
    | Except.ok none => Except.ok none
    | Except.ok (some nu) =>
      Except.ok (if nu.isEmpty then none else
        some ⟨"https://".data ++ domain.data ++ nu⟩)

/-- The `while url:` loop of `get_confluence_pages_by_space_id`
(src/app.py:177-197).  `fetch` is the network oracle; `fuel` bounds the
number of iterations (the Python loop has no such bound and can diverge on a
cyclic chain); `none` is returned when the fuel runs out or the `Link`
header parse raises.  An error body or a missing `results` field returns
`[]`, discarding everything accumulated so far, exactly as the Python
`return []` does. -/
def pagesGo (domain : String) (fetch : String → PageApiResponse) :
    Nat → Option String → List PageEntry → Option (List PageEntry)
  | _, none, acc => some acc
  | 0, some _, _ => none
  | fuel + 1, some url, acc =>
    match (fetch url).body with
    | PagesBody.bodyError => some []
    | PagesBody.noResults => some []
    | PagesBody.results rs =>
      match nextUrlOfResp domain (fetch url) with
      | Except.error _ => none
      | Except.ok nu => pagesGo domain fetch fuel nu (acc ++ rs)

/-- The initial URL of the listing loop (src/app.py:171). -/
def pagesInitialUrl (domain space_id : String) : String :=
  "https://" ++ domain ++ "/wiki/api/v2/spaces/" ++ space_id ++ "/pages"

/-- `get_confluence_pages_by_space_id` (src/app.py:157-197). -/
def get_confluence_pages_by_space_id (domain : String)
    (fetch : String → PageApiResponse) (space_id : String) (fuel : Nat) :
    Option (List PageEntry) :=
  pagesGo domain fetch fuel (some (pagesInitialUrl domain space_id)) []

/-- A finite chain of paginated responses: every response parses to a
`results` list, every response except the last carries a `rel="next"` link
resolving to the next URL of the chain, and the last carries none. -/
inductive Chain (domain : String) (fetch : String → PageApiResponse) :
    String → List (List PageEntry) → Prop where
  | last (u : String) (rs : List PageEntry)
      (hb : (fetch u).body = PagesBody.results rs)
      (hn : nextUrlOfResp domain (fetch u) = Except.ok none) :
      Chain domain fetch u [rs]
  | step (u u' : String) (rs : List PageEntry) (rss : List (List PageEntry))
      (hb : (fetch u).body = PagesBody.results rs)
      (hn : nextUrlOfResp domain (fetch u) = Except.ok (some u'))
      (hc : Chain domain fetch u' rss) :
      Chain domain fetch u (rs :: rss)

theorem pagesGo_chain {domain : String} {fetch : String → PageApiResponse}
    {u : String} {rss : List (List PageEntry)}
    (h : Chain domain fetch u rss) :
    ∀ fuel, rss.length ≤ fuel → ∀ acc,
      pagesGo domain fetch fuel (some u) acc = some (acc ++ rss.flatten) := by
  induction h with
  | last u rs hb hn =>
    intro fuel hf acc
    match fuel with
    | 0 => simp at hf
    | f + 1 =>
      simp only [pagesGo, hb, hn]
      simp [pagesGo]
  | step u u' rs rss hb hn hc ih =>
    intro fuel hf acc
    match fuel with
    | 0 => simp at hf
    | f + 1 =>
      simp only [pagesGo, hb, hn]
      have hf' : rss.length ≤ f := by
        simp only [List.length_cons] at hf
        omega
      rw [ih f hf' (acc ++ rs)]
      simp

/-- C6: on a finite chain of paginated responses linked by `rel="next"` Link
headers, the enumerator terminates (within fuel at least the chain length)
and returns the concatenation of every page of results in response order,
stopping at the first response without a `rel="next"` link. -/
theorem pages_pagination_concat (domain space_id : String)
    (fetch : String → PageApiResponse) (rss : List (List PageEntry))
    (fuel : Nat)
    (h : Chain domain fetch (pagesInitialUrl domain space_id) rss)
    (hf : rss.length ≤ fuel) :
    get_confluence_pages_by_space_id domain fetch space_id fuel
      = some rss.flatten := by
  unfold get_confluence_pages_by_space_id
  rw [pagesGo_chain h fuel hf []]
  simp

/-- A synthetic 3-page server: each page holds 2 results and the first two
responses chain to the next via a `Link` header. -/
def fetchThreePages : String → PageApiResponse := fun url =>
  if url = pagesInitialUrl "d.example" "S1" then
    { body := PagesBody.results [⟨"p1", "A"⟩, ⟨"p2", "B"⟩],
      linkHeader := some "</next2>; rel=\"next\"".data }
  else if url = "https://d.example/next2" then
    { body := PagesBody.results [⟨"p3", "C"⟩, ⟨"p4", "D"⟩],
      linkHeader := some "</next3>; rel=\"next\"".data }
  else
    { body := PagesBody.results [⟨"p5", "E"⟩, ⟨"p6", "F"⟩],
      linkHeader := none }

/-- Witness for C6: three chained pages of two results each yield exactly the
six entries, in order. -/
theorem pages_pagination_concat_witness :
    get_confluence_pages_by_space_id "d.example" fetchThreePages "S1" 3
      = some [⟨"p1", "A"⟩, ⟨"p2", "B"⟩, ⟨"p3", "C"⟩, ⟨"p4", "D"⟩,
              ⟨"p5", "E"⟩, ⟨"p6", "F"⟩] := by
  have h2 : Chain "d.example" fetchThreePages "https://d.example/next3"
      [[⟨"p5", "E"⟩, ⟨"p6", "F"⟩]] := by
    apply Chain.last
    · rfl
    · rfl
  have h1 : Chain "d.example" fetchThreePages "https://d.example/next2"
      [[⟨"p3", "C"⟩, ⟨"p4", "D"⟩], [⟨"p5", "E"⟩, ⟨"p6", "F"⟩]] := by
    apply Chain.step _ "https://d.example/next3"
    · rfl
    · rfl
    · exact h2
  have h0 : Chain "d.example" fetchThreePages
      (pagesInitialUrl "d.example" "S1")
      [[⟨"p1", "A"⟩, ⟨"p2", "B"⟩], [⟨"p3", "C"⟩, ⟨"p4", "D"⟩],
        [⟨"p5", "E"⟩, ⟨"p6", "F"⟩]] := by
    apply Chain.step _ "https://d.example/next2"
    · rfl
    · rfl
    · exact h1
  have := pages_pagination_concat "d.example" "S1" fetchThreePages
    [[⟨"p1", "A"⟩, ⟨"p2", "B"⟩], [⟨"p3", "C"⟩, ⟨"p4", "D"⟩],
      [⟨"p5", "E"⟩, ⟨"p6", "F"⟩]] 3 h0 (by decide)
  simpa using this

/-! ## Export-job client (`get_pdf_export_confluence_url`) -/

/-- The dynamically-typed value `get_pdf_export_confluence_url`
(src/app.py:199-218) can return: a string (the presigned URL), Python `None`
(the function falls off its end when the tokens are missing), or the
`{"error": ..., "details": ...}` dict built on a non-200 trigger status. -/
inductive PyVal where
  | pyStr (s : String)
  | pyNone
  | pyDict (error details : String)
deriving DecidableEq, Repr

/-- Whether a `PyVal` is a plain string. -/
def pyValIsStr : PyVal → Bool
  | PyVal.pyStr _ => true
  | _ => false

/-- Match a literal character sequence at the head of the input, returning
the rest. -/
def matchLit : List Char → List Char → Option (List Char)
  | [], s => some s
  | _ :: _, [] => none
  | p :: ps, c :: cs => if c == p then matchLit ps cs else none

/-- Match the regex `\s+`: at least one whitespace character, greedily.  The
pattern characters following `\s+` in the source regexes are non-whitespace,
so greedy matching without backtracking is exact here. -/
def matchWs1 : List Char → Option (List Char)
  | [] => none
  | c :: cs => if isPySpace c then some (cs.dropWhile isPySpace) else none

/-- Match `([^"]+)"`: a nonempty run of non-quote characters (the capture)
followed by the closing quote. -/
def matchCapture (s : List Char) : Option (List Char × List Char) :=
  let cap := s.takeWhile (fun c => c != '"')
  let rest := s.dropWhile (fun c => c != '"')
  match rest with
  | '"' :: r => if cap.isEmpty then none else some (cap, r)
  | _ => none

/-- Match the regex `<meta\s+name="{nm}"\s+content="([^"]+)"` anchored at the
start of the input, returning the capture. -/
def matchMetaAt (nm : List Char) (s : List Char) : Option (List Char) :=
  (matchLit "<meta".data s).bind fun s1 =>
  (matchWs1 s1).bind fun s2 =>
  (matchLit ("name=\"".data ++ nm ++ "\"".data) s2).bind fun s3 =>
  (matchWs1 s3).bind fun s4 =>
  (matchLit "content=\"".data s4).bind fun s5 =>
  (matchCapture s5).map Prod.fst

/-- `re.search` for the meta-tag pattern: try the anchored match at every
position, first hit wins. -/
def reSearchMeta (nm : List Char) : List Char → Option (List Char)
  | [] => none
  | c :: cs =>
    match matchMetaAt nm (c :: cs) with
    | some r => some r
    | none => reSearchMeta nm cs

/-- `extract_task_and_cloud_id_from_html` (src/app.py:305-326): search for
the `ajs-taskId` and `ajs-cloud-id` meta tags; return both captures when both
are found and truthy (nonempty), else `None`. -/
def extract_task_and_cloud_id_from_html (html : List Char) :
    Option (String × String) :=
  match reSearchMeta "ajs-taskId".data html,
      reSearchMeta "ajs-cloud-id".data html with
  | some t, some c =>
    if t.isEmpty || c.isEmpty then none else some (⟨t⟩, ⟨c⟩)
  | _, _ => none

/-- Network oracle for one invocation of the export-job client: the status
and HTML body of the trigger response, and the text body the download-link
endpoint returns for given `(taskId, cloudId)`. -/
structure TriggerEnv where
  triggerStatus : Nat
  triggerText : String
  downloadText : String → String → String

/-- `get_pdf_export_confluence_url` (src/app.py:199-218): a non-200 trigger
response returns the error dict; otherwise the tokens are extracted from the
HTML and, when both are present, the download endpoint's response text (the
presigned URL) is returned; when either is missing the function falls off its
end, returning `None`. -/
def get_pdf_export_confluence_url (env : TriggerEnv) : PyVal :=
  if env.triggerStatus ≠ 200 then
    PyVal.pyDict ("Request failed with status " ++ toString env.triggerStatus)
      env.triggerText
  else
    match extract_task_and_cloud_id_from_html env.triggerText.data with
    | some tc => PyVal.pyStr (env.downloadText tc.1 tc.2)
    | none => PyVal.pyNone

/-- Counterexample for C8: on a trigger response with status 500 the client
returns the `{"error", "details"}` dict — a value that is neither a presigned
URL string nor the no-result signal. -/
theorem get_pdf_export_url_counterexample :
    get_pdf_export_confluence_url ⟨500, "oops", fun _ _ => "u"⟩
        = PyVal.pyDict "Request failed with status 500" "oops"
      ∧ pyValIsStr (get_pdf_export_confluence_url ⟨500, "oops", fun _ _ => "u"⟩)
          = false
      ∧ get_pdf_export_confluence_url ⟨500, "oops", fun _ _ => "u"⟩
          ≠ PyVal.pyNone := by
  refine ⟨rfl, rfl, ?_⟩
  decide

theorem extract_none_of_no_task {html : List Char}
    (h : reSearchMeta "ajs-taskId".data html = none) :
    extract_task_and_cloud_id_from_html html = none := by
  unfold extract_task_and_cloud_id_from_html
  rw [h]

theorem extract_none_of_no_cloud {html : List Char}
    (h : reSearchMeta "ajs-cloud-id".data html = none) :
    extract_task_and_cloud_id_from_html html = none := by
  unfold extract_task_and_cloud_id_from_html
  rw [h]
  cases reSearchMeta "ajs-taskId".data html <;> rfl

/-- C8 (amended): the export-job client returns a presigned URL string
exactly when the trigger status is 200 and both tokens are extracted; the
no-result signal (`None`) exactly when the status is 200 and extraction
fails — in particular whenever either meta tag is absent; and on a non-200
trigger status an `{"error", "details"}` record (a third kind of value,
which the claim as stated excludes). -/
theorem get_pdf_export_url_amended (env : TriggerEnv) :
    ((∃ s, get_pdf_export_confluence_url env = PyVal.pyStr s)
        ↔ env.triggerStatus = 200
          ∧ extract_task_and_cloud_id_from_html env.triggerText.data ≠ none)
      ∧ (get_pdf_export_confluence_url env = PyVal.pyNone
        ↔ env.triggerStatus = 200
          ∧ extract_task_and_cloud_id_from_html env.triggerText.data = none)
      ∧ ((∃ e d, get_pdf_export_confluence_url env = PyVal.pyDict e d)
        ↔ env.triggerStatus ≠ 200)
      ∧ (reSearchMeta "ajs-taskId".data env.triggerText.data = none
          → extract_task_and_cloud_id_from_html env.triggerText.data = none)
      ∧ (reSearchMeta "ajs-cloud-id".data env.triggerText.data = none
          → extract_task_and_cloud_id_from_html env.triggerText.data = none) := by
  by_cases hs : env.triggerStatus = 200
  · cases hx : extract_task_and_cloud_id_from_html env.triggerText.data with
    | none =>
      refine ⟨?_, ?_, ?_, ?_, ?_⟩
      · constructor
        · rintro ⟨s, hres⟩
          simp [get_pdf_export_confluence_url, hs, hx] at hres
        · rintro ⟨-, hne⟩
          exact absurd rfl hne
      · simp [get_pdf_export_confluence_url, hs, hx]
      · constructor
        · rintro ⟨e, d, hres⟩
          simp [get_pdf_export_confluence_url, hs, hx] at hres
        · intro hne; exact absurd hs hne
      · intro _; rfl
      · intro _; rfl
    | some tc =>
      refine ⟨?_, ?_, ?_, ?_, ?_⟩
      · constructor
        · intro _; exact ⟨hs, by simp⟩
        · intro _
          exact ⟨env.downloadText tc.1 tc.2,
            by simp [get_pdf_export_confluence_url, hs, hx]⟩
      · constructor
        · intro hres
          simp [get_pdf_export_confluence_url, hs, hx] at hres
        · rintro ⟨-, hnone⟩
          exact absurd hnone (by simp)
      · constructor
        · rintro ⟨e, d, hres⟩
          simp [get_pdf_export_confluence_url, hs, hx] at hres
        · intro hne; exact absurd hs hne
      · intro h
        rw [← hx]
        exact extract_none_of_no_task h
      · intro h
        rw [← hx]
        exact extract_none_of_no_cloud h
  · refine ⟨?_, ?_, ?_, ?_, ?_⟩
    · constructor
      · rintro ⟨s, hres⟩
        simp [get_pdf_export_confluence_url, hs] at hres
      · rintro ⟨h200, -⟩
        exact absurd h200 hs
    · constructor
      · intro hres
        simp [get_pdf_export_confluence_url, hs] at hres
      · rintro ⟨h200, -⟩
        exact absurd h200 hs
    · constructor
      · intro _; exact hs
      · intro _
        exact ⟨"Request failed with status " ++ toString env.triggerStatus,
          env.triggerText, by simp [get_pdf_export_confluence_url, hs]⟩
    · exact fun h => extract_none_of_no_task h
    · exact fun h => extract_none_of_no_cloud h

/-! ## Per-page export (`export_pdf_confluence_page_by_id`) -/

theorem string_isEmpty_false {s : String} (h : s ≠ "") :
    s.isEmpty = false := by
  cases hE : s.isEmpty with
  | false => rfl
  | true => exact absurd ((String.isEmpty_iff s).mp hE) h

/-- Python exceptions the per-page export can raise: `AttributeError` from
calling `.strip()` on `None` (title or content fetch failed), the exception
`requests.get` raises when the "URL" it is handed is `None` or a dict rather
than a string, and the `NameError` the GCS sink hits on a 200 download —
`storage.Client()` at src/app.py:385 with `storage` never imported. -/
inductive PyExc where
  | attributeError
  | requestsError
  | nameError
deriving DecidableEq, Repr

/-- Observable events of one per-page export, in order: a call to the PDF
export trigger endpoint (`get_pdf_export_confluence_url`), the
`time.sleep(wait_time)` before a download, and the fixed `time.sleep(10)`
after a failed attempt. -/
inductive Ev where
  | trigger
  | preWait (n : Nat)
  | betweenWait (n : Nat)
deriving DecidableEq, Repr

/-- Python truthiness of an optional string (`None` and `""` are falsy). -/
def pyTruthyStrOpt : Option String → Bool
  | none => false
  | some s => !s.isEmpty

/-- The `wait_time` coercion at src/app.py:479-480: `None` (absent) or `0`
becomes 15. -/
def coerceWait : Option Nat → Nat
  | none => 15
  | some 0 => 15
  | some w => w

/-- Network oracle for one page's export: the title fetch result, the
content fetch result (`none` when `get_confluence_page_title_by_id` /
`get_confluence_page_content_by_id` returned `None` after an error), the
value `get_pdf_export_confluence_url` returns on the k-th attempt, and the
status code `requests.get(url, stream=True)` yields on the k-th attempt's
artifact download.  The filesystem sink returns this status whatever it is
(src/app.py:350-360); the GCS sink returns it only when it is not 200 — on
a 200 it first evaluates `storage.Client()` (src/app.py:385) with `storage`
never imported, raising `NameError` (modelled in the loop, not here). -/
structure PageEnv where
  titleFetch : Option String
  contentFetch : Option String
  urlAt : Nat → PyVal
  statusAt : Nat → Nat

/-- The effective page title: the provided one when truthy, else the fetched
one (src/app.py:467-468, `if not page_title`). -/
def effTitle (env : PageEnv) (page_title : Option String) : Option String :=
  if pyTruthyStrOpt page_title then page_title else env.titleFetch

/-- The `for attempt in range(3)` retry loop (src/app.py:483-515).
`remaining` counts attempts left, `k` is the attempt index, `w` the current
`wait_time`, `acc` the event trace accumulated in reverse.  Each attempt
calls the trigger, sleeps `w`, downloads; a non-200 status adds 10 to the
wait, sleeps a fixed 10, and retries; exhausting the loop returns
`'DOWNLOAD_FAILED'`.  On a 200 status the destination matters: with a truthy
`gcs_bucket_name` the download call dies in `storage.Client()` (`storage` is
never imported, src/app.py:385) raising `NameError` before returning;
without one the filesystem sink returns 200 and the loop returns
`'DOWNLOAD_SUCCESFUL'` (the source's spelling).  A non-string value from the
trigger step raises inside `requests.get`. -/
def attemptLoop (env : PageEnv) (gcs_bucket_name : Option String) :
    Nat → Nat → Nat → List Ev → Except PyExc (String × List Ev)
  | 0, _, _, acc => Except.ok ("DOWNLOAD_FAILED", acc.reverse)
  | r + 1, k, w, acc =>
    match env.urlAt k with
    | PyVal.pyStr _ =>
      if env.statusAt k = 200 then
        if pyTruthyStrOpt gcs_bucket_name then
          Except.error PyExc.nameError
        else
          Except.ok ("DOWNLOAD_SUCCESFUL",
            (Ev.preWait w :: Ev.trigger :: acc).reverse)
      else
        attemptLoop env gcs_bucket_name r (k + 1) (w + 10)
          (Ev.betweenWait 10 :: Ev.preWait w :: Ev.trigger :: acc)
    | _ => Except.error PyExc.requestsError

/-- `export_pdf_confluence_page_by_id` (src/app.py:440-515), with the event
trace as ghost instrumentation.  If the effective title is `None`,
`convert_title_to_filename(None)` raises `AttributeError`
(`None.strip()`); if the content fetch returned `None`,
`is_empty_confluence_page` raises `AttributeError` the same way.  A page
whose stripped content is `"<p />"` or `""` is `'EMPTY_PAGE'` before any
trigger call; otherwise the wait is coerced and the retry loop runs.
`gcs_bucket_name` selects the GCS sink when truthy, as in the source; the
`output_path` of the filesystem sink does not affect the outcome and is not
modelled. -/
def export_pdf_confluence_page_by_id (env : PageEnv)
    (page_title : Option String) (gcs_bucket_name : Option String)
    (wait_time : Option Nat) :
    Except PyExc (String × List Ev) :=
  match effTitle env page_title with
  | none => Except.error PyExc.attributeError
  | some _ =>
    match env.contentFetch with
    | none => Except.error PyExc.attributeError
    | some content =>
      if pyStripStr content = "<p />" ∨ pyStripStr content = "" then
        Except.ok ("EMPTY_PAGE", [])
      else
        attemptLoop env gcs_bucket_name 3 0 (coerceWait wait_time) []

/-- C1 (code evaluated at the failing input): when the content fetch fails
(`get_confluence_page_content_by_id` returns `None` after a transport
error), the per-page export raises `AttributeError` out of
`is_empty_confluence_page` (`None.strip()`) instead of returning one of the
three terminal outcome labels. -/
theorem export_page_raises_on_content_error :
    export_pdf_confluence_page_by_id
        ⟨some "Title", none, fun _ => PyVal.pyStr "u", fun _ => 200⟩
        none none (some 15)
      = Except.error PyExc.attributeError := rfl

/-- C2: for a non-empty page on which every attempt's download status is
non-200, the export returns `'DOWNLOAD_FAILED'` after exactly three
attempts, whichever destination (filesystem or GCS bucket) is configured —
on a non-200 status both sinks just return the status code; the
pre-download wait before attempt k is `coerceWait wait_time + 10 * (k - 1)`
and a fixed 10-second sleep follows each failed attempt; the initial wait
is coerced to 15 when the job's wait value is absent or zero. -/
theorem export_page_download_failed (env : PageEnv)
    (page_title gcs_bucket_name : Option String) (wait_time : Option Nat)
    (t c : String)
    (ht : effTitle env page_title = some t)
    (hc : env.contentFetch = some c)
    (hne : ¬(pyStripStr c = "<p />" ∨ pyStripStr c = ""))
    (hurl : ∀ k, k < 3 → ∃ s, env.urlAt k = PyVal.pyStr s)
    (hst : ∀ k, k < 3 → env.statusAt k ≠ 200) :
    export_pdf_confluence_page_by_id env page_title gcs_bucket_name wait_time
        = Except.ok ("DOWNLOAD_FAILED",
            [Ev.trigger, Ev.preWait (coerceWait wait_time),
             Ev.betweenWait 10,
             Ev.trigger, Ev.preWait (coerceWait wait_time + 10),
             Ev.betweenWait 10,
             Ev.trigger, Ev.preWait (coerceWait wait_time + 20),
             Ev.betweenWait 10])
      ∧ coerceWait none = 15 ∧ coerceWait (some 0) = 15 := by
  obtain ⟨s0, h0⟩ := hurl 0 (by omega)
  obtain ⟨s1, h1⟩ := hurl 1 (by omega)
  obtain ⟨s2, h2⟩ := hurl 2 (by omega)
  refine ⟨?_, rfl, rfl⟩
  simp only [export_pdf_confluence_page_by_id, ht, hc]
  rw [if_neg hne]
  simp only [attemptLoop, h0, h1, h2,
    if_neg (hst 0 (by omega)), if_neg (hst 1 (by omega)),
    if_neg (hst 2 (by omega))]
  simp [List.reverse_cons]

/-- Witness for C2: a concrete page whose three download attempts all return
404 fails with the escalating waits 20, 30, 40 seconds. -/
theorem export_page_download_failed_witness :
    export_pdf_confluence_page_by_id
        ⟨some "Title", some "hello", fun _ => PyVal.pyStr "u", fun _ => 404⟩
        none none (some 20)
      = Except.ok ("DOWNLOAD_FAILED",
          [Ev.trigger, Ev.preWait 20, Ev.betweenWait 10,
           Ev.trigger, Ev.preWait 30, Ev.betweenWait 10,
           Ev.trigger, Ev.preWait 40, Ev.betweenWait 10])
      ∧ coerceWait none = 15 ∧ coerceWait (some 0) = 15 :=
  export_page_download_failed
    ⟨some "Title", some "hello", fun _ => PyVal.pyStr "u", fun _ => 404⟩
    none none (some 20) "Title" "hello" rfl rfl (by decide)
    (fun k _ => ⟨"u", rfl⟩) (fun k _ => show (404 : Nat) ≠ 200 by decide)

/-- Counterexample for C3: a non-empty page whose first download attempt
returns 200 yields, in a filesystem-destination job, the label
`'DOWNLOAD_SUCCESFUL'` — the source's spelling, not the spec's
`DOWNLOAD_SUCCESSFUL` — and in a GCS-destination job it does not return at
all: the download call raises `NameError` (`storage` is never imported). -/
theorem export_page_success_label_counterexample :
    export_pdf_confluence_page_by_id
        ⟨some "Title", some "hello", fun _ => PyVal.pyStr "u", fun _ => 200⟩
        none none (some 15)
      = Except.ok ("DOWNLOAD_SUCCESFUL", [Ev.trigger, Ev.preWait 15])
      ∧ "DOWNLOAD_SUCCESFUL" ≠ "DOWNLOAD_SUCCESSFUL"
      ∧ export_pdf_confluence_page_by_id
          ⟨some "Title", some "hello", fun _ => PyVal.pyStr "u", fun _ => 200⟩
          none (some "bucket") (some 15)
        = Except.error PyExc.nameError := by
  refine ⟨rfl, ?_, rfl⟩
  decide

/-- C3 (amended): for a non-empty page whose first download attempt returns
200, a filesystem-destination job (no GCS bucket) returns the source's
label `'DOWNLOAD_SUCCESFUL'` (one `S`, unlike the spec's
`DOWNLOAD_SUCCESSFUL`), the trace holds exactly one trigger+download
round-trip, and the retry loop terminates immediately; a GCS-destination
job instead raises `NameError` on that same 200, because the `storage`
module the sink uses is never imported. -/
theorem export_page_first_attempt_success (env : PageEnv)
    (page_title : Option String) (wait_time : Option Nat) (t c s : String)
    (ht : effTitle env page_title = some t)
    (hc : env.contentFetch = some c)
    (hne : ¬(pyStripStr c = "<p />" ∨ pyStripStr c = ""))
    (hurl : env.urlAt 0 = PyVal.pyStr s)
    (hst : env.statusAt 0 = 200) :
    (export_pdf_confluence_page_by_id env page_title none wait_time
        = Except.ok ("DOWNLOAD_SUCCESFUL",
            [Ev.trigger, Ev.preWait (coerceWait wait_time)])
      ∧ ([Ev.trigger, Ev.preWait (coerceWait wait_time)].count Ev.trigger
          = 1))
      ∧ ∀ b : String, b ≠ "" →
          export_pdf_confluence_page_by_id env page_title (some b) wait_time
            = Except.error PyExc.nameError := by
  constructor
  · refine ⟨?_, by simp⟩
    simp only [export_pdf_confluence_page_by_id, ht, hc]
    rw [if_neg hne]
    simp only [attemptLoop, hurl, if_pos hst]
    simp [pyTruthyStrOpt]
  · intro b hb
    simp only [export_pdf_confluence_page_by_id, ht, hc]
    rw [if_neg hne]
    simp only [attemptLoop, hurl, if_pos hst]
    simp [pyTruthyStrOpt, string_isEmpty_false hb]

/-- Witness for C3's amended theorem: a concrete page succeeding on the
first attempt, both without a bucket and with one. -/
theorem export_page_first_attempt_success_witness :
    (export_pdf_confluence_page_by_id
          ⟨some "T2", some "body", fun _ => PyVal.pyStr "u2", fun _ => 200⟩
          none none (some 25)
        = Except.ok ("DOWNLOAD_SUCCESFUL", [Ev.trigger, Ev.preWait 25])
      ∧ ([Ev.trigger, Ev.preWait 25].count Ev.trigger = 1))
      ∧ ∀ b : String, b ≠ "" →
          export_pdf_confluence_page_by_id
              ⟨some "T2", some "body", fun _ => PyVal.pyStr "u2",
                fun _ => 200⟩
              none (some b) (some 25)
            = Except.error PyExc.nameError :=
  export_page_first_attempt_success
    ⟨some "T2", some "body", fun _ => PyVal.pyStr "u2", fun _ => 200⟩
    none (some 25) "T2" "body" "u2" rfl rfl (by decide) rfl rfl

/-- C4: a page whose export-view content is `""` or the literal `"<p />"`
yields `'EMPTY_PAGE'` with an empty event trace — in particular zero calls
to the PDF-export trigger endpoint. -/
theorem export_page_empty (env : PageEnv)
    (page_title gcs_bucket_name : Option String)
    (wait_time : Option Nat) (t : String)
    (ht : effTitle env page_title = some t)
    (hc : env.contentFetch = some "" ∨ env.contentFetch = some "<p />") :
    export_pdf_confluence_page_by_id env page_title gcs_bucket_name wait_time
        = Except.ok ("EMPTY_PAGE", [])
      ∧ ([] : List Ev).count Ev.trigger = 0 := by
  refine ⟨?_, rfl⟩
  rcases hc with hc | hc <;>
  · simp only [export_pdf_confluence_page_by_id, ht, hc]
    rw [if_pos (by decide)]

/-- Witness for C4: a concrete page with the empty-paragraph marker. -/
theorem export_page_empty_witness :
    export_pdf_confluence_page_by_id
        ⟨some "T3", some "<p />", fun _ => PyVal.pyStr "u", fun _ => 200⟩
        none none (some 15)
      = Except.ok ("EMPTY_PAGE", [])
      ∧ ([] : List Ev).count Ev.trigger = 0 :=
  export_page_empty
    ⟨some "T3", some "<p />", fun _ => PyVal.pyStr "u", fun _ => 200⟩
    none none (some 15) "T3" rfl (Or.inr rfl)

/-! ## Space-level job (`export_pdf_confluence_space_by_key`) -/

/-- Insert-or-overwrite on an insertion-ordered association list, the
behaviour of `pages_ids_dict[page['id']] = page['title']`
(src/app.py:553-555): an existing key keeps its position and gets the new
value, a new key is appended. -/
def dictInsert (d : List (String × String)) (k v : String) :
    List (String × String) :=
  if d.any (fun p => decide (p.1 = k)) then
    d.map (fun p => if p.1 = k then (k, v) else p)
  else d ++ [(k, v)]

/-- Build the `pages_ids_dict` from the enumerated pages, in order. -/
def dictOfPages (ps : List PageEntry) : List (String × String) :=
  ps.foldl (fun d p => dictInsert d p.id p.title) []

/-- `add_value_to_dict` (src/app.py:424-436): append `v` to the list at `k`,
creating the singleton bucket `[v]` when `k` is absent. -/
def add_value_to_dict (d : List (String × List String)) (k v : String) :
    List (String × List String) :=
  if d.any (fun p => decide (p.1 = k)) then
    d.map (fun p => if p.1 = k then (p.1, p.2 ++ [v]) else p)
  else d ++ [(k, [v])]

/-- Network oracle for a whole space job: the space-id lookup result, the
homepage-id lookup result, what the page enumeration produced (`[]` on any
enumeration error, per `get_confluence_pages_by_space_id`), and each page's
per-page oracle keyed by page id. -/
structure SpaceEnv where
  spaceId : Option String
  homepageId : Option String
  pages : List PageEntry
  pageEnv : String → PageEnv

/-- The per-page processing loop of the space job (src/app.py:563-577):
export each page with the job's original `wait_time` (Python passes the
integer by value, so a page's local `wait_time += 10` never reaches the
caller), and record its outcome with `add_value_to_dict`.  The second
component of the result pairs each page id with its ghost event trace, in
processing order.  An exception from a page export propagates out of the
whole job, as it does in Python. -/
def processPages (env : SpaceEnv) (gcs_bucket_name : Option String)
    (wait_time : Option Nat) :
    List (String × String) → List (String × List String) →
    List (String × List Ev) →
    Except PyExc (Option (List (String × List String) × List (String × List Ev)))
  | [], status, traces => Except.ok (some (status, traces.reverse))
  | e :: rest, status, traces =>
    match export_pdf_confluence_page_by_id (env.pageEnv e.1) (some e.2)
        gcs_bucket_name wait_time with
    | Except.error ex => Except.error ex
    | Except.ok (label, evs) =>
      processPages env gcs_bucket_name wait_time rest
        (add_value_to_dict status label e.1) ((e.1, evs) :: traces)

/-- `export_pdf_confluence_space_by_key` (src/app.py:517-584): a falsy space
id or homepage id (Python `if not space_id:` — `None` or `""`) returns
`None` for the whole job; otherwise the enumerated pages are deduplicated
into `pages_ids_dict` and processed one by one. -/
def export_pdf_confluence_space_by_key (env : SpaceEnv)
    (gcs_bucket_name : Option String) (wait_time : Option Nat) :
    Except PyExc (Option (List (String × List String) × List (String × List Ev))) :=
  match env.spaceId with
  | none => Except.ok none
  | some sid =>
    if sid.isEmpty then Except.ok none
    else
      match env.homepageId with
      | none => Except.ok none
      | some hid =>
        if hid.isEmpty then Except.ok none
        else
          processPages env gcs_bucket_name wait_time
            (dictOfPages env.pages) [] []

/-- The per-page run the space job performs for a dict entry `(id, title)`. -/
def runOf (env : SpaceEnv) (gcs_bucket_name : Option String)
    (wait_time : Option Nat) (e : String × String) :
    Except PyExc (String × List Ev) :=
  export_pdf_confluence_page_by_id (env.pageEnv e.1) (some e.2)
    gcs_bucket_name wait_time

/-- The outcome label of a completed per-page run (`""` on an exception;
only ever read off completed runs). -/
def labelOf : Except PyExc (String × List Ev) → String
  | Except.ok p => p.1
  | Except.error _ => ""

/-- The event trace of a completed per-page run. -/
def evsOf : Except PyExc (String × List Ev) → List Ev
  | Except.ok p => p.2
  | Except.error _ => []

/-- Total number of occurrences of a page id across all outcome buckets. -/
def bucketCount (m : List (String × List String)) (id : String) : Nat :=
  (m.map (fun kv => kv.2.count id)).sum

/-- The pre-download waits of an event trace, in order. -/
def preWaits (evs : List Ev) : List Nat :=
  evs.filterMap (fun e => match e with
    | Ev.preWait n => some n
    | _ => none)

-- Helper lemmas for the space-job loop.

theorem processPages_ne_ok_none (env : SpaceEnv) (gcs : Option String)
    (wt : Option Nat) :
    ∀ (todo : List (String × String)) status traces,
      processPages env gcs wt todo status traces ≠ Except.ok none := by
  intro todo
  induction todo with
  | nil => intro status traces h; simp [processPages] at h
  | cons e rest ih =>
    intro status traces h
    simp only [processPages] at h
    cases hr : export_pdf_confluence_page_by_id (env.pageEnv e.1) (some e.2)
        gcs wt with
    | error ex => rw [hr] at h; simp at h
    | ok p =>
      obtain ⟨lab, evs⟩ := p
      rw [hr] at h
      exact ih _ _ h

theorem processPages_ok_eq (env : SpaceEnv) (gcs : Option String)
    (wt : Option Nat) :
    ∀ (todo : List (String × String)) status traces m tr,
      processPages env gcs wt todo status traces = Except.ok (some (m, tr)) →
      m = todo.foldl
          (fun d e => add_value_to_dict d (labelOf (runOf env gcs wt e)) e.1)
          status
        ∧ tr = traces.reverse
            ++ todo.map (fun e => (e.1, evsOf (runOf env gcs wt e))) := by
  intro todo
  induction todo with
  | nil =>
    intro status traces m tr h
    simp only [processPages, Except.ok.injEq, Option.some.injEq,
      Prod.mk.injEq] at h
    simp [← h.1, ← h.2]
  | cons e rest ih =>
    intro status traces m tr h
    simp only [processPages] at h
    cases hr : export_pdf_confluence_page_by_id (env.pageEnv e.1) (some e.2)
        gcs wt with
    | error ex => rw [hr] at h; simp at h
    | ok p =>
      obtain ⟨lab, evs⟩ := p
      rw [hr] at h
      obtain ⟨hm, ht⟩ := ih _ _ _ _ h
      constructor
      · rw [List.foldl_cons, hm]
        have : labelOf (runOf env gcs wt e) = lab := by
          unfold runOf
          rw [hr]
          rfl
        rw [this]
      · rw [ht]
        have : evsOf (runOf env gcs wt e) = evs := by
          unfold runOf
          rw [hr]
          rfl
        simp [this]

theorem processPages_ok_of (env : SpaceEnv) (gcs : Option String)
    (wt : Option Nat) :
    ∀ (todo : List (String × String)) status traces,
      (∀ e ∈ todo, ∃ r, runOf env gcs wt e = Except.ok r) →
      ∃ m tr, processPages env gcs wt todo status traces
        = Except.ok (some (m, tr)) := by
  intro todo
  induction todo with
  | nil => intro status traces _; exact ⟨status, traces.reverse, rfl⟩
  | cons e rest ih =>
    intro status traces hok
    obtain ⟨⟨lab, evs⟩, hr⟩ := hok e (List.mem_cons_self e rest)
    have hr' : export_pdf_confluence_page_by_id (env.pageEnv e.1) (some e.2)
        gcs wt = Except.ok (lab, evs) := hr
    obtain ⟨m, tr, hrec⟩ := ih (add_value_to_dict status lab e.1)
      ((e.1, evs) :: traces)
      (fun e2 he2 => hok e2 (List.mem_cons_of_mem e he2))
    refine ⟨m, tr, ?_⟩
    simp only [processPages, hr']
    exact hrec

theorem map_if_key_eq_self {β : Type} (k : String)
    (f : String × β → String × β) :
    ∀ (d : List (String × β)), (∀ q ∈ d, q.1 ≠ k) →
      d.map (fun q => if q.1 = k then f q else q) = d := by
  intro d
  induction d with
  | nil => intro _; rfl
  | cons q rest ih =>
    intro h
    simp only [List.map_cons]
    rw [if_neg (h q (List.mem_cons_self q rest)),
      ih (fun q2 hq2 => h q2 (List.mem_cons_of_mem q hq2))]

theorem mapfst_add_value_to_dict (d : List (String × List String))
    (k v : String) :
    (add_value_to_dict d k v).map Prod.fst
      = if d.any (fun p => decide (p.1 = k)) then d.map Prod.fst
        else d.map Prod.fst ++ [k] := by
  unfold add_value_to_dict
  by_cases h : d.any (fun p => decide (p.1 = k))
  · rw [if_pos h, if_pos h, List.map_map]
    apply List.map_congr_left
    intro p _
    by_cases hp : p.1 = k
    · simp [hp]
    · simp [hp]
  · rw [if_neg h, if_neg h]
    simp

theorem keysNodup_add_value_to_dict {d : List (String × List String)}
    {k v : String} (hn : (d.map Prod.fst).Nodup) :
    ((add_value_to_dict d k v).map Prod.fst).Nodup := by
  rw [mapfst_add_value_to_dict]
  by_cases h : d.any (fun p => decide (p.1 = k))
  · rw [if_pos h]; exact hn
  · rw [if_neg h]
    have hk : k ∉ d.map Prod.fst := by
      intro hmem
      obtain ⟨p, hp, hpk⟩ := List.mem_map.mp hmem
      apply h
      rw [List.any_eq_true]
      exact ⟨p, hp, by simp [hpk]⟩
    simp [List.nodup_append, hn, hk]

theorem bucketCount_append_single (d : List (String × List String))
    (k v id : String) :
    bucketCount (d ++ [(k, [v])]) id
      = bucketCount d id + (if id = v then 1 else 0) := by
  simp only [bucketCount, List.map_append, List.sum_append, List.map_cons,
    List.map_nil, List.sum_cons, List.sum_nil]
  by_cases hv : id = v <;> simp [hv, List.count_singleton]

theorem bucketCount_add_value :
    ∀ (d : List (String × List String)) (k v id : String),
      (d.map Prod.fst).Nodup →
      bucketCount (add_value_to_dict d k v) id
        = bucketCount d id + (if id = v then 1 else 0) := by
  intro d
  induction d with
  | nil =>
    intro k v id _
    have : add_value_to_dict [] k v = [] ++ [(k, [v])] := by
      simp [add_value_to_dict]
    rw [this, bucketCount_append_single]
  | cons p rest ih =>
    intro k v id hn
    rw [List.map_cons] at hn
    have hn' := List.nodup_cons.mp hn
    by_cases hp : p.1 = k
    · have hany : (p :: rest).any (fun q => decide (q.1 = k)) = true := by
        simp [List.any_cons, hp]
      have hrest : ∀ q ∈ rest, q.1 ≠ k := by
        intro q hq hqk
        apply hn'.1
        rw [hp, ← hqk]
        exact List.mem_map_of_mem Prod.fst hq
      unfold add_value_to_dict
      rw [if_pos hany]
      simp only [List.map_cons, if_pos hp]
      rw [map_if_key_eq_self k (fun q => (q.1, q.2 ++ [v])) rest hrest]
      simp only [bucketCount, List.map_cons, List.sum_cons,
        List.count_append]
      by_cases hv : id = v
      · simp [hv, List.count_singleton]
        omega
      · simp [hv, List.count_singleton]
    · by_cases hany : rest.any (fun q => decide (q.1 = k))
      · have hany' : (p :: rest).any (fun q => decide (q.1 = k)) = true := by
          simp [List.any_cons, hany]
        have hrec := ih k v id hn'.2
        unfold add_value_to_dict at hrec ⊢
        rw [if_pos hany']
        rw [if_pos hany] at hrec
        simp only [List.map_cons, if_neg hp]
        simp only [bucketCount, List.map_cons, List.sum_cons] at hrec ⊢
        omega
      · have hany' : ¬ (p :: rest).any (fun q => decide (q.1 = k)) = true := by
          simp only [List.any_cons, Bool.or_eq_true, decide_eq_true_eq]
          push_neg
          refine ⟨hp, ?_⟩
          intro hcon
          exact hany hcon
        unfold add_value_to_dict
        rw [if_neg hany']
        rw [bucketCount_append_single]

theorem buckets_sublist_add {d : List (String × List String)}
    {ids : List String} {k v : String}
    (hb : ∀ kv ∈ d, kv.2.Sublist ids) :
    ∀ kv ∈ add_value_to_dict d k v, kv.2.Sublist (ids ++ [v]) := by
  intro kv hkv
  unfold add_value_to_dict at hkv
  by_cases h : d.any (fun p => decide (p.1 = k))
  · rw [if_pos h] at hkv
    obtain ⟨q, hq, hfq⟩ := List.mem_map.mp hkv
    by_cases hqk : q.1 = k
    · rw [if_pos hqk] at hfq
      rw [← hfq]
      exact (hb q hq).append (List.Sublist.refl [v])
    · rw [if_neg hqk] at hfq
      rw [← hfq]
      exact (hb q hq).trans (List.sublist_append_left ids [v])
  · rw [if_neg h] at hkv
    rcases List.mem_append.mp hkv with hkv | hkv
    · exact (hb kv hkv).trans (List.sublist_append_left ids [v])
    · have : kv = (k, [v]) := by simpa using hkv
      rw [this]
      exact List.sublist_append_right ids [v]

theorem foldl_add_buckets (lab : String × String → String) :
    ∀ (todo : List (String × String)) (status : List (String × List String))
      (ids : List String),
      (status.map Prod.fst).Nodup →
      (∀ kv ∈ status, kv.2.Sublist ids) →
      (((todo.foldl (fun d e => add_value_to_dict d (lab e) e.1)
            status).map Prod.fst).Nodup)
        ∧ (∀ id,
            bucketCount
                (todo.foldl (fun d e => add_value_to_dict d (lab e) e.1)
                  status) id
              = bucketCount status id + (todo.map Prod.fst).count id)
        ∧ (∀ kv ∈ todo.foldl (fun d e => add_value_to_dict d (lab e) e.1)
              status,
            kv.2.Sublist (ids ++ todo.map Prod.fst)) := by
  intro todo
  induction todo with
  | nil =>
    intro status ids hn hb
    refine ⟨hn, fun id => by simp, ?_⟩
    simpa using hb
  | cons e rest ih =>
    intro status ids hn hb
    simp only [List.foldl_cons]
    obtain ⟨ihn, ihc, ihs⟩ := ih (add_value_to_dict status (lab e) e.1)
      (ids ++ [e.1]) (keysNodup_add_value_to_dict hn) (buckets_sublist_add hb)
    refine ⟨ihn, ?_, ?_⟩
    · intro id
      rw [ihc id, bucketCount_add_value status (lab e) e.1 id hn]
      simp only [List.map_cons, List.count_cons]
      by_cases hv : id = e.1
      · have hbe : (e.1 == id) = true := by simp [hv]
        rw [hbe]
        simp only [if_pos hv, if_true]
        omega
      · have hbe : (e.1 == id) = false := by
          simp only [beq_eq_false_iff_ne, ne_eq]
          exact fun hcon => hv hcon.symm
        rw [hbe]
        simp only [Bool.false_eq_true, if_false, if_neg hv]
        omega
    · intro kv hkv
      have := ihs kv hkv
      simpa [List.append_assoc] using this

theorem mapfst_dictInsert (d : List (String × String)) (k v : String) :
    (dictInsert d k v).map Prod.fst
      = if d.any (fun p => decide (p.1 = k)) then d.map Prod.fst
        else d.map Prod.fst ++ [k] := by
  unfold dictInsert
  by_cases h : d.any (fun p => decide (p.1 = k))
  · rw [if_pos h, if_pos h, List.map_map]
    apply List.map_congr_left
    intro p hp
    by_cases hpk : p.1 = k
    · simp [hpk]
    · simp [hpk]
  · rw [if_neg h, if_neg h]
    simp

theorem keysNodup_dictInsert {d : List (String × String)} {k v : String}
    (hn : (d.map Prod.fst).Nodup) :
    ((dictInsert d k v).map Prod.fst).Nodup := by
  rw [mapfst_dictInsert]
  by_cases h : d.any (fun p => decide (p.1 = k))
  · rw [if_pos h]; exact hn
  · rw [if_neg h]
    have hk : k ∉ d.map Prod.fst := by
      intro hmem
      obtain ⟨p, hp, hpk⟩ := List.mem_map.mp hmem
      apply h
      rw [List.any_eq_true]
      exact ⟨p, hp, by simp [hpk]⟩
    simp [List.nodup_append, hn, hk]

theorem dictOfPages_keys_nodup (ps : List PageEntry) :
    ((dictOfPages ps).map Prod.fst).Nodup := by
  suffices h : ∀ (d : List (String × String)), (d.map Prod.fst).Nodup →
      ((ps.foldl (fun d p => dictInsert d p.id p.title) d).map
        Prod.fst).Nodup by
    exact h [] (by simp)
  induction ps with
  | nil => intro d hd; exact hd
  | cons p rest ih =>
    intro d hd
    simp only [List.foldl_cons]
    exact ih (dictInsert d p.id p.title) (keysNodup_dictInsert hd)

theorem attemptLoop_ok_evs (env : PageEnv) (gcs : Option String) :
    ∀ (r k w : Nat) (acc : List Ev) (lab : String) (evs : List Ev),
      attemptLoop env gcs r k w acc = Except.ok (lab, evs) →
      evs = acc.reverse
        ∨ ∃ t2, evs = acc.reverse ++ Ev.trigger :: Ev.preWait w :: t2 := by
  intro r
  induction r with
  | zero =>
    intro k w acc lab evs h
    simp only [attemptLoop, Except.ok.injEq, Prod.mk.injEq] at h
    exact Or.inl h.2.symm
  | succ r ih =>
    intro k w acc lab evs h
    simp only [attemptLoop] at h
    cases hu : env.urlAt k with
    | pyStr s =>
      rw [hu] at h
      by_cases hs : env.statusAt k = 200
      · rw [if_pos hs] at h
        by_cases hb : pyTruthyStrOpt gcs = true
        · rw [if_pos hb] at h
          simp at h
        · rw [if_neg hb] at h
          simp only [Except.ok.injEq, Prod.mk.injEq] at h
          refine Or.inr ⟨[], ?_⟩
          rw [← h.2]
          simp
      · rw [if_neg hs] at h
        rcases ih (k + 1) (w + 10)
            (Ev.betweenWait 10 :: Ev.preWait w :: Ev.trigger :: acc) lab evs h
          with h2 | ⟨t2, h2⟩
        · refine Or.inr ⟨[Ev.betweenWait 10], ?_⟩
          rw [h2]
          simp
        · refine Or.inr ⟨Ev.betweenWait 10 :: Ev.trigger
            :: Ev.preWait (w + 10) :: t2, ?_⟩
          rw [h2]
          simp
    | pyNone => rw [hu] at h; simp at h
    | pyDict e d => rw [hu] at h; simp at h

theorem export_page_ok_evs (envp : PageEnv) (pt gcs : Option String)
    (wt : Option Nat) (lab : String) (evs : List Ev)
    (h : export_pdf_confluence_page_by_id envp pt gcs wt
      = Except.ok (lab, evs)) :
    evs = []
      ∨ ∃ t2, evs = Ev.trigger :: Ev.preWait (coerceWait wt) :: t2 := by
  unfold export_pdf_confluence_page_by_id at h
  cases ht : effTitle envp pt with
  | none => rw [ht] at h; simp at h
  | some t =>
    cases hc : envp.contentFetch with
    | none => simp only [ht, hc] at h; simp at h
    | some c =>
      simp only [ht, hc] at h
      by_cases he : pyStripStr c = "<p />" ∨ pyStripStr c = ""
      · rw [if_pos he] at h
        simp only [Except.ok.injEq, Prod.mk.injEq] at h
        exact Or.inl h.2.symm
      · rw [if_neg he] at h
        rcases attemptLoop_ok_evs envp gcs 3 0 (coerceWait wt) [] lab evs h
          with h2 | ⟨t2, h2⟩
        · exact Or.inl (by simpa using h2)
        · exact Or.inr ⟨t2, by simpa using h2⟩

/-- C7: a space job returns no result exactly when the space-id resolution
or the homepage-id resolution fails; with both resolved, the job completes
with a result map for any enumeration outcome — including the empty page
set an enumeration error degrades to — provided each page's export
completes. -/
theorem space_job_abort_iff (env : SpaceEnv) (gcs : Option String)
    (wt : Option Nat)
    (hs : env.spaceId ≠ some "") (hh : env.homepageId ≠ some "")
    (hok : ∀ pid ptitle, ∃ r,
      export_pdf_confluence_page_by_id (env.pageEnv pid) (some ptitle)
        gcs wt = Except.ok r) :
    (export_pdf_confluence_space_by_key env gcs wt = Except.ok none
        ↔ env.spaceId = none ∨ env.homepageId = none)
      ∧ (env.spaceId ≠ none → env.homepageId ≠ none →
          ∃ m tr, export_pdf_confluence_space_by_key env gcs wt
            = Except.ok (some (m, tr))) := by
  cases hsp : env.spaceId with
  | none =>
    constructor
    · constructor
      · intro _; exact Or.inl rfl
      · intro _; simp [export_pdf_confluence_space_by_key, hsp]
    · intro h1 _; exact absurd rfl h1
  | some sid =>
    have hse : sid.isEmpty = false :=
      string_isEmpty_false (fun he => hs (by rw [hsp, he]))
    cases hhp : env.homepageId with
    | none =>
      constructor
      · constructor
        · intro _; exact Or.inr rfl
        · intro _
          simp [export_pdf_confluence_space_by_key, hsp, hhp, hse]
      · intro _ h2; exact absurd rfl h2
    | some hid =>
      have hhe : hid.isEmpty = false :=
        string_isEmpty_false (fun he => hh (by rw [hhp, he]))
      obtain ⟨m, tr, hmtr⟩ := processPages_ok_of env gcs wt
        (dictOfPages env.pages) [] [] (fun e _ => hok e.1 e.2)
      have hred : export_pdf_confluence_space_by_key env gcs wt
          = processPages env gcs wt (dictOfPages env.pages) [] [] := by
        simp [export_pdf_confluence_space_by_key, hsp, hhp, hse, hhe]
      constructor
      · constructor
        · intro habort
          rw [hred] at habort
          exact (processPages_ne_ok_none env gcs wt _ _ _ habort).elim
        · rintro (h | h) <;> simp at h
      · intro _ _
        refine ⟨m, tr, ?_⟩
        rw [hred]
        exact hmtr

theorem exportSpace_ok_processPages (env : SpaceEnv) (gcs : Option String)
    (wt : Option Nat)
    (m : List (String × List String)) (tr : List (String × List Ev))
    (hres : export_pdf_confluence_space_by_key env gcs wt
      = Except.ok (some (m, tr))) :
    processPages env gcs wt (dictOfPages env.pages) [] []
      = Except.ok (some (m, tr)) := by
  cases hsp : env.spaceId with
  | none => simp [export_pdf_confluence_space_by_key, hsp] at hres
  | some sid =>
    by_cases hse : sid.isEmpty
    · simp [export_pdf_confluence_space_by_key, hsp, hse] at hres
    · cases hhp : env.homepageId with
      | none =>
        simp [export_pdf_confluence_space_by_key, hsp, hse, hhp] at hres
      | some hid =>
        by_cases hhe : hid.isEmpty
        · simp [export_pdf_confluence_space_by_key, hsp, hse, hhp, hhe]
            at hres
        · simpa [export_pdf_confluence_space_by_key, hsp, hse, hhp, hhe]
            using hres

/-- C9: in a completed space job, each enumerated page id lands in exactly
one outcome bucket (its total count across all buckets is 1, and 0 for
anything not enumerated), and every bucket lists its page ids in processing
order (it is a sublist of the deduplicated enumeration order). -/
theorem space_job_buckets (env : SpaceEnv) (gcs : Option String)
    (wt : Option Nat)
    (m : List (String × List String)) (tr : List (String × List Ev))
    (hres : export_pdf_confluence_space_by_key env gcs wt
      = Except.ok (some (m, tr))) :
    (∀ id, bucketCount m id
        = if id ∈ (dictOfPages env.pages).map Prod.fst then 1 else 0)
      ∧ ∀ kv ∈ m, kv.2.Sublist ((dictOfPages env.pages).map Prod.fst) := by
  have hproc := exportSpace_ok_processPages env gcs wt m tr hres
  obtain ⟨hm, htr⟩ := processPages_ok_eq env gcs wt _ [] [] m tr hproc
  obtain ⟨-, hcount, hsub⟩ := foldl_add_buckets
    (fun e => labelOf (runOf env gcs wt e)) (dictOfPages env.pages) [] []
    (by simp) (by simp)
  constructor
  · intro id
    rw [hm, hcount id]
    have hnd := dictOfPages_keys_nodup env.pages
    by_cases hmem : id ∈ (dictOfPages env.pages).map Prod.fst
    · rw [if_pos hmem]
      have := List.count_eq_one_of_mem hnd hmem
      simp [bucketCount, this]
    · rw [if_neg hmem]
      simp [bucketCount, List.count_eq_zero_of_not_mem hmem]
  · intro kv hkv
    rw [hm] at hkv
    have := hsub kv hkv
    simpa using this

/-- C10: the escalating backoff is local to each page — in a completed space
job, every page's recorded trace equals the trace of running the per-page
export independently with the job's original wait value, and its first
pre-download wait (when it downloads at all) is the coerced initial wait,
never a value carried over from an earlier page's retries. -/
theorem space_job_backoff_local (env : SpaceEnv) (gcs : Option String)
    (wt : Option Nat)
    (m : List (String × List String)) (tr : List (String × List Ev))
    (hres : export_pdf_confluence_space_by_key env gcs wt
      = Except.ok (some (m, tr))) :
    tr = (dictOfPages env.pages).map
        (fun e => (e.1, evsOf (runOf env gcs wt e)))
      ∧ ∀ p ∈ tr, p.2 = []
          ∨ (preWaits p.2).head? = some (coerceWait wt) := by
  have hproc := exportSpace_ok_processPages env gcs wt m tr hres
  obtain ⟨hm, htr⟩ := processPages_ok_eq env gcs wt _ [] [] m tr hproc
  have htr' : tr = (dictOfPages env.pages).map
      (fun e => (e.1, evsOf (runOf env gcs wt e))) := by simpa using htr
  refine ⟨htr', ?_⟩
  intro p hp
  rw [htr'] at hp
  obtain ⟨e, he, hpe⟩ := List.mem_map.mp hp
  cases hr : runOf env gcs wt e with
  | error ex =>
    left
    rw [← hpe]
    simp [evsOf, hr]
  | ok q =>
    obtain ⟨lab, evs⟩ := q
    rcases export_page_ok_evs (env.pageEnv e.1) (some e.2) gcs wt lab evs hr
      with h0 | ⟨t2, h2⟩
    · left
      rw [← hpe]
      simp [evsOf, hr, h0]
    · right
      rw [← hpe]
      simp [evsOf, hr, h2, preWaits, List.filterMap_cons]

/-- A page oracle whose content is the empty-paragraph marker: every export
of it is an immediate `'EMPTY_PAGE'`. -/
def pageEnvEmptyW : PageEnv :=
  ⟨some "T", some "<p />", fun _ => PyVal.pyStr "u", fun _ => 200⟩

/-- A concrete two-page space job used as witness input. -/
def envJobW : SpaceEnv :=
  ⟨some "SID", some "HID", [⟨"p1", "A"⟩, ⟨"p2", "B"⟩],
    fun _ => pageEnvEmptyW⟩

theorem envJobW_page_ok (pid ptitle : String) :
    export_pdf_confluence_page_by_id (envJobW.pageEnv pid) (some ptitle)
      none (some 15) = Except.ok ("EMPTY_PAGE", []) := by
  have ht : ∃ tt, effTitle (envJobW.pageEnv pid) (some ptitle) = some tt := by
    unfold effTitle
    by_cases h : pyTruthyStrOpt (some ptitle)
    · rw [if_pos h]; exact ⟨ptitle, rfl⟩
    · rw [if_neg h]; exact ⟨"T", rfl⟩
  obtain ⟨tt, htt⟩ := ht
  simp only [export_pdf_confluence_page_by_id, htt]
  rfl

/-- Witness for C7: the concrete two-page job has both ids resolved, so it
aborts for no reason, and completes with a result map. -/
theorem space_job_abort_iff_witness :
    (export_pdf_confluence_space_by_key envJobW none (some 15)
          = Except.ok none
        ↔ envJobW.spaceId = none ∨ envJobW.homepageId = none)
      ∧ (envJobW.spaceId ≠ none → envJobW.homepageId ≠ none →
          ∃ m tr, export_pdf_confluence_space_by_key envJobW none (some 15)
            = Except.ok (some (m, tr))) :=
  space_job_abort_iff envJobW none (some 15) (by decide) (by decide)
    (fun pid ptitle => ⟨("EMPTY_PAGE", []), envJobW_page_ok pid ptitle⟩)

/-- Witness for C9: in the concrete two-page job, each page id appears
exactly once across the buckets, and the single bucket is in processing
order. -/
theorem space_job_buckets_witness :
    (∀ id, bucketCount [("EMPTY_PAGE", ["p1", "p2"])] id
        = if id ∈ (dictOfPages envJobW.pages).map Prod.fst then 1 else 0)
      ∧ ∀ kv ∈ [("EMPTY_PAGE", ["p1", "p2"])],
          kv.2.Sublist ((dictOfPages envJobW.pages).map Prod.fst) :=
  space_job_buckets envJobW none (some 15) [("EMPTY_PAGE", ["p1", "p2"])]
    [("p1", []), ("p2", [])] rfl

/-- Witness for C10: in the concrete two-page job, each page's trace is the
independent run with the job's original wait. -/
theorem space_job_backoff_local_witness :
    [("p1", ([] : List Ev)), ("p2", [])]
        = (dictOfPages envJobW.pages).map
            (fun e => (e.1, evsOf (runOf envJobW none (some 15) e)))
      ∧ ∀ p ∈ [("p1", ([] : List Ev)), ("p2", [])],
          p.2 = [] ∨ (preWaits p.2).head? = some (coerceWait (some 15)) :=
  space_job_backoff_local envJobW none (some 15)
    [("EMPTY_PAGE", ["p1", "p2"])] [("p1", []), ("p2", [])] rfl
